import Mathlib

/-!
Verification of the tgbot change-detection pipeline against its
natural-language specification.

The Python services are shallowly embedded:
* Python values that flow through the offer dictionaries (`None`, `str`,
  non-negative `int`) are the inductive `PyVal`; a dictionary key that may be
  absent is an `Option PyVal` field (`none` = key absent, `some PyVal.none` =
  key present with value `None`).
* Python string operations (`strip`, `upper`, `capitalize`, `str()`) are
  modelled character-exactly on the ASCII range on `String.data`.
* `json.dumps(..., sort_keys=True)` is modelled by an explicit serializer
  emitting keys in sorted order; the SHA-256 digest is modelled by an
  injective stand-in (`sha256_hex := id` on the canonical serialization),
  since every claim concerns only equality or inequality of digests.
* The stable Python `list.sort(key=...)` is modelled by `List.insertionSort`
  with the non-strict key order, which is a stable sort.
* HTTP calls and HTML extraction are modelled by oracles: an `Except` value
  for a call that may fail, abstract extraction functions for parsed pages.
-/

/-- Python values appearing in the raw/normalized offer dictionaries. -/
inductive PyVal where
  | none : PyVal
  | str (s : String) : PyVal
  | int (n : Nat) : PyVal
deriving DecidableEq

/-- Python `str(value)`: identity on strings, decimal digits for a
non-negative int, the text `None` for `None`. -/
def pyStr : PyVal → String
  | PyVal.none => "None"
  | PyVal.str s => s
  | PyVal.int n => Nat.repr n

/-- Python truthiness for the values that occur in offer dictionaries. -/
def pyTruthy : PyVal → Bool
  | PyVal.none => false
  | PyVal.str s => decide (s ≠ "")
  | PyVal.int n => decide (n ≠ 0)

/-- The ASCII whitespace class of Python `str.strip` and regex `\s`. -/
def pyIsSpace (c : Char) : Bool :=
  c.toNat = 32 || c.toNat = 9 || c.toNat = 10 || c.toNat = 11 || c.toNat = 12 || c.toNat = 13

/-- The ASCII digit class of regex `\d` and `int()` parsing. -/
def pyIsDigit (c : Char) : Bool :=
  48 ≤ c.toNat && c.toNat ≤ 57

/-- Remove leading and trailing whitespace characters (Python `str.strip`). -/
def stripList (l : List Char) : List Char :=
  ((l.dropWhile pyIsSpace).reverse.dropWhile pyIsSpace).reverse

/-- Python `str.strip()`. -/
def pyStrip (s : String) : String := ⟨stripList s.data⟩

/-- Python `str.upper()` (ASCII range, which covers all inputs used). -/
def pyUpper (s : String) : String := ⟨s.data.map Char.toUpper⟩

/-- Python `str.capitalize()`: first character uppercased, the rest
lowercased. -/
def capList : List Char → List Char
  | [] => []
  | c :: cs => Char.toUpper c :: cs.map Char.toLower

/-- Python `str.capitalize()`. -/
def pyCapitalize (s : String) : String := ⟨capList s.data⟩

/-- Value of Python `int(s)` on a non-empty all-digit string. -/
def parseDigits (l : List Char) : Nat :=
  l.foldl (fun a c => 10 * a + (c.toNat - 48)) 0

/-- `normalizer.strip_currency`: `None` maps to 0; otherwise `str()` the
value, delete `₹`, commas and whitespace, then delete every remaining
non-digit, and parse the remaining digits (0 when none are left). -/
def strip_currency (value : PyVal) : Nat :=
  match value with
  | PyVal.none => 0
  | v =>
    let text := pyStr v
    let cleaned1 := text.data.filter (fun c => !(c = '₹' || c = ',' || pyIsSpace c))
    let cleaned2 := cleaned1.filter pyIsDigit
    if cleaned2.isEmpty then 0 else parseDigits cleaned2

/-- A raw (or normalized) bank-offer dictionary. Each field is a key that
may be absent (`none`) or present with a `PyVal` (possibly `PyVal.none`). -/
structure RawOffer where
  bank_name : Option PyVal
  card_type : Option PyVal
  discount_value : Option PyVal
  min_transaction : Option PyVal
  min_transaction_amount : Option PyVal
deriving DecidableEq

/-- The value Python's `offer.get("min_transaction", offer.get("min_transaction_amount"))`
reads: the `min_transaction` value when that key is present (even if `None`),
otherwise the `min_transaction_amount` value (or `None`). -/
def minTxnVal (o : RawOffer) : PyVal :=
  match o.min_transaction with
  | some v => v
  | none => o.min_transaction_amount.getD PyVal.none

/-- One entry of `normalize_offers`' list construction: the normalized
offer dictionary built from a raw offer. -/
def normalizeOne (o : RawOffer) : RawOffer :=
  let cv := o.card_type.getD PyVal.none
  { bank_name := some (PyVal.str (pyUpper (pyStrip (pyStr (o.bank_name.getD (PyVal.str "")))))),
    card_type := some (if pyTruthy cv then PyVal.str (pyCapitalize (pyStrip (pyStr cv))) else PyVal.none),
    discount_value := some (PyVal.int (strip_currency (o.discount_value.getD PyVal.none))),
    min_transaction := none,
    min_transaction_amount := some (PyVal.int (strip_currency (minTxnVal o))) }

/-- First component of the sort key `(x["bank_name"], x["card_type"] or "")`. -/
def keyBank (o : RawOffer) : String :=
  match o.bank_name with
  | some (PyVal.str s) => s
  | _ => ""

/-- Second component of the sort key: `x["card_type"] or ""`. -/
def keyCard (o : RawOffer) : String :=
  match o.card_type with
  | some (PyVal.str s) => s
  | _ => ""

/-- The sort key of `normalized.sort(key=lambda x: (x["bank_name"], x["card_type"] or ""))`. -/
def sortKey (o : RawOffer) : String × String := (keyBank o, keyCard o)

/-- Python `<` on strings: lexicographic comparison by code point. -/
def listLtB : List Char → List Char → Bool
  | [], [] => false
  | [], _ :: _ => true
  | _ :: _, [] => false
  | a :: as, b :: bs =>
    if a.toNat < b.toNat then true
    else if b.toNat < a.toNat then false
    else listLtB as bs

/-- Python string `<`. -/
def strLtB (a b : String) : Bool := listLtB a.data b.data

/-- Python string `<=` (total order: `a <= b` iff `¬ b < a`). -/
def strLeB (a b : String) : Bool := !(strLtB b a)

/-- Python tuple `<=` on the two-string sort keys. -/
def keyLeB (a b : String × String) : Bool :=
  strLtB a.1 b.1 || (decide (a.1 = b.1) && strLeB a.2 b.2)

/-- The non-strict order `normalized.sort` sorts by. -/
def offerLe (a b : RawOffer) : Prop := keyLeB (sortKey a) (sortKey b) = true

instance offerLeDec : DecidableRel offerLe := fun a b =>
  inferInstanceAs (Decidable (_ = true))

/-- `normalizer.normalize_offers`: map every raw offer to its normalized
dictionary, then sort stably by `(bank_name, card_type or "")`.  Python's
stable `list.sort` is modelled by insertion sort with the non-strict key
order, which is stable. -/
def normalize_offers (offers : List RawOffer) : List RawOffer :=
  List.insertionSort offerLe (offers.map normalizeOne)

/-- Hex digits of `\uXXXX` escapes (lowercase, as Python emits them). -/
def hex4 (n : Nat) : List Char :=
  [Nat.digitChar (n / 4096 % 16), Nat.digitChar (n / 256 % 16),
   Nat.digitChar (n / 16 % 16), Nat.digitChar (n % 16)]

/-- `json.dumps` escaping of one character; `ensure_ascii` additionally
escapes every character above the ASCII range (with surrogate pairs beyond
the basic plane). -/
def jsonEscapeChar (ensure_ascii : Bool) (c : Char) : List Char :=
  if c = '"' then ['\\', '"']
  else if c = '\\' then ['\\', '\\']
  else if c = '\n' then ['\\', 'n']
  else if c = '\t' then ['\\', 't']
  else if c = '\r' then ['\\', 'r']
  else if c.toNat = 8 then ['\\', 'b']
  else if c.toNat = 12 then ['\\', 'f']
  else if c.toNat < 32 then '\\' :: 'u' :: hex4 c.toNat
  else if ensure_ascii && 126 < c.toNat then
    if c.toNat < 65536 then '\\' :: 'u' :: hex4 c.toNat
    else
      ('\\' :: 'u' :: hex4 (55296 + (c.toNat - 65536) / 1024)) ++
      ('\\' :: 'u' :: hex4 (56320 + (c.toNat - 65536) % 1024))
  else [c]

/-- `json.dumps` rendering of a string. -/
def jsonString (ensure_ascii : Bool) (s : String) : String :=
  ⟨'"' :: (s.data.flatMap (jsonEscapeChar ensure_ascii)) ++ ['"']⟩

/-- `json.dumps` rendering of a scalar value. -/
def jsonVal (ensure_ascii : Bool) : PyVal → String
  | PyVal.none => "null"
  | PyVal.str s => jsonString ensure_ascii s
  | PyVal.int n => Nat.repr n

/-- The present keys of an offer dictionary with their values, in the
sorted key order `json.dumps(..., sort_keys=True)` uses. -/
def offerEntries (o : RawOffer) : List (String × PyVal) :=
  (match o.bank_name with | some v => [("bank_name", v)] | none => []) ++
  (match o.card_type with | some v => [("card_type", v)] | none => []) ++
  (match o.discount_value with | some v => [("discount_value", v)] | none => []) ++
  (match o.min_transaction with | some v => [("min_transaction", v)] | none => []) ++
  (match o.min_transaction_amount with | some v => [("min_transaction_amount", v)] | none => [])

/-- `json.dumps` of one offer dictionary with `sort_keys=True` and the
default separators. -/
def jsonOffer (ensure_ascii : Bool) (o : RawOffer) : String :=
  "\x7b" ++ String.intercalate ", "
    ((offerEntries o).map (fun e => jsonString ensure_ascii e.1 ++ ": " ++ jsonVal ensure_ascii e.2)) ++ "\x7d"

/-- `json.dumps` of a list of offer dictionaries. -/
def jsonOfferList (ensure_ascii : Bool) (l : List RawOffer) : String :=
  "[" ++ String.intercalate ", " (l.map (jsonOffer ensure_ascii)) ++ "]"

/-- SHA-256 hex digest, modelled as an injective digest: the canonical
serialization itself stands in for its digest, since the claims concern
only equality and inequality of digests of canonical serializations. -/
def sha256_hex (s : String) : String := s

/-- `normalizer.compute_hash`: SHA-256 over
`json.dumps(normalized_offers, sort_keys=True, ensure_ascii=False)`. -/
def compute_hash (normalized_offers : List RawOffer) : String :=
  sha256_hex (jsonOfferList false normalized_offers)

/-- The scheduler's per-offer content hash: SHA-256 over
`json.dumps(offer, sort_keys=True)` (default `ensure_ascii=True`). -/
def per_offer_hash (o : RawOffer) : String :=
  sha256_hex (jsonOffer true o)

/-- Response of the offer engine's `/analyze` endpoint. `new_hash` is an
`Option` because the scheduler's fallback dictionary may carry a null value
for it; the service itself always returns `some`. -/
structure AnalyzeData where
  changed : Bool
  change_type : Option String
  new_hash : Option String
  normalized_offers : List RawOffer
deriving DecidableEq

/-- The offer engine's change detector (`offer-engine/main.analyze`):
normalize, hash, compare against the previous hash, and classify. -/
def offerEngineAnalyze (offers : List RawOffer) (previous_hash : Option String) : AnalyzeData :=
  let normalized := normalize_offers offers
  let new_hash := compute_hash normalized
  let changed := decide (some new_hash ≠ previous_hash)
  let change_type : Option String :=
    if changed then
      if previous_hash = none then some "INITIAL_FETCH" else some "BANK_OFFER_UPDATED"
    else none
  { changed := changed, change_type := change_type,
    new_hash := some new_hash, normalized_offers := normalized }

/-- Result dictionary of `FlipkartScraper.scrape` (it has no
`deliverable` key; an absent key reads as null at the service boundary). -/
structure FlipkartResult where
  product_name : Option String
  price : Option Int
  availability : Option Bool
  bank_offers : List RawOffer
  platform : String
  error : Option String
deriving DecidableEq

/-- Result dictionary of `VivoScraper.scrape`. -/
structure VivoResult where
  product_name : Option String
  price : Option Int
  availability : Option Bool
  deliverable : Option Bool
  bank_offers : List RawOffer
  platform : String
  error : Option String
deriving DecidableEq

/-- `FlipkartScraper.scrape`. The whole body sits in a `try/except
Exception` block; a raising step (the retried fetch) is the `Except`
oracle `fetch`, and the BeautifulSoup extraction helpers (which are total:
their internal parse attempts catch their own exceptions) are abstract
functions of the fetched page. On any failure the except-branch returns
the dictionary with every data field null, an empty offer list and the
exception text under the `error` key. -/
def FlipkartScraper.scrape {Page : Type}
    (extract_name : Page → Option String) (extract_price : Page → Option Int)
    (extract_availability : Page → Option Bool) (extract_bank_offers : Page → List RawOffer)
    (fetch : Except String Page) : FlipkartResult :=
  match fetch with
  | Except.ok page =>
    { product_name := extract_name page, price := extract_price page,
      availability := extract_availability page, bank_offers := extract_bank_offers page,
      platform := "flipkart", error := none }
  | Except.error exc =>
    { product_name := none, price := none, availability := none, bank_offers := [],
      platform := "flipkart", error := some exc }

/-- `VivoScraper.scrape`, same structure as the Flipkart scraper but with a
deliverability check and a hard-coded empty bank-offer list on success. -/
def VivoScraper.scrape {Page : Type}
    (extract_name : Page → Option String) (extract_price : Page → Option Int)
    (extract_availability : Page → Option Bool)
    (extract_deliverability : Page → Option String → Option Bool)
    (fetch : Except String Page) (pincode : Option String) : VivoResult :=
  match fetch with
  | Except.ok page =>
    { product_name := extract_name page, price := extract_price page,
      availability := extract_availability page,
      deliverable := extract_deliverability page pincode,
      bank_offers := [], platform := "vivo", error := none }
  | Except.error exc =>
    { product_name := none, price := none, availability := none, deliverable := none,
      bank_offers := [], platform := "vivo", error := some exc }

instance exceptDecEq {ε α : Type} [DecidableEq ε] [DecidableEq α] :
    DecidableEq (Except ε α) := fun a b =>
  match a, b with
  | Except.ok x, Except.ok y =>
    if h : x = y then Decidable.isTrue (by rw [h])
    else Decidable.isFalse (by intro he; cases he; exact h rfl)
  | Except.error x, Except.error y =>
    if h : x = y then Decidable.isTrue (by rw [h])
    else Decidable.isFalse (by intro he; cases he; exact h rfl)
  | Except.ok _, Except.error _ => Decidable.isFalse (by intro he; cases he)
  | Except.error _, Except.ok _ => Decidable.isFalse (by intro he; cases he)

/-- Observable trace of one bounded-retry loop: the final outcome (the
error is `Option`al because the scheduler variant initializes `last_exc =
None`), the number of attempts made, and the `time.sleep` waits performed
in order. -/
structure RetryTrace (α : Type) where
  outcome : Except (Option String) α
  attempts : Nat
  waits : List Nat
deriving DecidableEq

/-- The shared retry loop body of `base_scraper._get_with_retry`,
`scheduler.http_post_with_retry` and `scheduler.http_get_with_retry`:
`for attempt in range(remaining)` starting at index `attempt`, each failed
attempt records the wait `2 ** attempt` (the code sleeps after every
failure, including the last), and exhaustion raises the last exception. -/
def retryLoop {α : Type} (f : Nat → Except String α) :
    Nat → Nat → Option String → RetryTrace α
  | _, 0, last => ⟨Except.error last, 0, []⟩
  | attempt, remaining + 1, last =>
    match f attempt with
    | Except.ok a => ⟨Except.ok a, 1, []⟩
    | Except.error exc =>
      let rest := retryLoop f (attempt + 1) remaining (some exc)
      ⟨rest.outcome, rest.attempts + 1, (2 ^ attempt) :: rest.waits⟩

/-- `scheduler.MAX_RETRIES`. -/
def MAX_RETRIES : Nat := 3

/-- `scheduler.http_post_with_retry` (and identically
`http_get_with_retry`): `MAX_RETRIES` attempts, `last_exc` initialized to
`None`. The attempt oracle `f` gives each attempt's outcome. -/
def http_post_with_retry {α : Type} (f : Nat → Except String α) : RetryTrace α :=
  retryLoop f 0 MAX_RETRIES none

/-- `BaseScraper._get_with_retry`: `max_retries` coerced up to at least 1,
`last_exc` initialized to a `RuntimeError` naming the url. -/
def get_with_retry {α : Type} (f : Nat → Except String α) (url : String)
    (max_retries : Nat) : RetryTrace α :=
  retryLoop f 0 (if max_retries < 1 then 1 else max_retries)
    (some ("No attempts made for " ++ url))

/-- The scrape response fields the scheduler reads (`scrape_data.get(...)`).
`deliverable` is carried by the vivo scraper's response but never read by
the scheduler. -/
structure ScrapeData where
  bank_offers : List RawOffer
  price : Option Int
  product_name : Option String
  availability : Option Bool
  deliverable : Option Bool
deriving DecidableEq

/-- A normalized offer together with the per-offer content hash the
scheduler attaches before persisting. -/
structure OfferForUpdate where
  offer : RawOffer
  offer_hash : String
deriving DecidableEq

/-- The tracked-product record as the scheduler and the api-gateway see it
(timestamps are not modelled). -/
structure ProductRecord where
  id : Nat
  user_id : Nat
  product_url : String
  platform : String
  product_name : Option String
  last_price : Option Int
  last_availability : Option Bool
  last_deliverable : Option Bool
  last_offer_hash : Option String
  bank_offers : List OfferForUpdate
deriving DecidableEq

/-- Outcomes of the external calls one item's processing makes: the scrape
call (after retries), the analyze call (after retries), the un-retried
patch call, the user-resolution lookup (`none` both when the lookup fails
and when it returns no id), and the notify call (after retries). -/
structure ItemEnv where
  scrape : Except String ScrapeData
  analyze : Except String AnalyzeData
  patchOk : Bool
  resolve : Option String
  notifyOk : Bool
deriving DecidableEq

/-- The PATCH body the scheduler builds (`patch_payload`): fields are
`some` exactly when the scheduler includes the key with a non-null value
that the gateway will apply; `bank_offers` is always included. -/
structure PatchPayload where
  product_name : Option String
  last_price : Option Int
  last_availability : Option Bool
  last_offer_hash : Option String
  bank_offers : List OfferForUpdate
deriving DecidableEq

/-- `price_changed = new_price is not None and new_price != product.get("last_price")`. -/
def priceChangedB (p : ProductRecord) (sd : ScrapeData) : Bool :=
  sd.price.isSome && decide (sd.price ≠ p.last_price)

/-- `availability_changed = new_availability is not None and new_availability != product.get("last_availability")`. -/
def availabilityChangedB (p : ProductRecord) (sd : ScrapeData) : Bool :=
  sd.availability.isSome && decide (sd.availability ≠ p.last_availability)

/-- The analyze result the scheduler proceeds with: the service response on
success, and on failure the fallback
`{"changed": False, "new_hash": previous_hash, "normalized_offers": []}`
(whose missing `change_type` key reads as null). -/
def effectiveAnalyze (p : ProductRecord) (env : ItemEnv) : AnalyzeData :=
  match env.analyze with
  | Except.ok a => a
  | Except.error _ =>
    { changed := false, change_type := none, new_hash := p.last_offer_hash,
      normalized_offers := [] }

/-- `offers_for_update`: each normalized offer with its content hash. -/
def offersForUpdate (ad : AnalyzeData) : List OfferForUpdate :=
  ad.normalized_offers.map (fun o => ⟨o, per_offer_hash o⟩)

/-- The scheduler's `patch_payload`: hash and offers always, name only when
truthy, price and availability only when not `None`. -/
def buildPatchPayload (sd : ScrapeData) (ad : AnalyzeData) : PatchPayload :=
  { product_name :=
      match sd.product_name with
      | some s => if s = "" then none else some s
      | none => none,
    last_price := sd.price,
    last_availability := sd.availability,
    last_offer_hash := ad.new_hash,
    bank_offers := offersForUpdate ad }

/-- The api-gateway's `update_product` applied to a scheduler payload:
each supplied (non-null) scalar field overwrites the stored one, and the
stored bank-offer rows are replaced by the supplied list (which the
scheduler always supplies). `last_deliverable` is never touched because
the scheduler never sends it. -/
def applyPatch (p : ProductRecord) (pl : PatchPayload) : ProductRecord :=
  { p with
    product_name := match pl.product_name with | some s => some s | none => p.product_name,
    last_price := match pl.last_price with | some v => some v | none => p.last_price,
    last_availability := match pl.last_availability with | some b => some b | none => p.last_availability,
    last_offer_hash := match pl.last_offer_hash with | some h => some h | none => p.last_offer_hash,
    bank_offers := pl.bank_offers }

/-- Python `str(int)` rendering of a stored price. -/
def intStr (v : Int) : String :=
  if v < 0 then "-" ++ Nat.repr v.natAbs else Nat.repr v.toNat

/-- f-string rendering of a possibly-`None` price. -/
def optIntStr : Option Int → String
  | some v => intStr v
  | none => "None"

/-- `f"🔔 Update for product: {new_name or url}"`. -/
def headerLine (p : ProductRecord) (sd : ScrapeData) : String :=
  "🔔 Update for product: " ++
    (match sd.product_name with
     | some s => if s = "" then p.product_url else s
     | none => p.product_url)

/-- `f"💰 Price: ₹{old_price} → ₹{new_price}"`. -/
def priceLine (p : ProductRecord) (sd : ScrapeData) : String :=
  "💰 Price: ₹" ++ optIntStr p.last_price ++ " → ₹" ++ optIntStr sd.price

/-- `f"📦 Availability: {status}"`. -/
def availLine (sd : ScrapeData) : String :=
  "📦 Availability: " ++ (if sd.availability = some true then "✅ In Stock" else "❌ Out of Stock")

/-- `f"🏦 Bank offers changed ({change_type})"`. -/
def offersLine (ad : AnalyzeData) : String :=
  "🏦 Bank offers changed (" ++
    (match ad.change_type with | some s => s | none => "None") ++ ")"

/-- Everything observable about one item's processing in a cycle. -/
structure ItemResult where
  skipped : Bool
  patchAttempted : Bool
  patchPayload : Option PatchPayload
  newState : ProductRecord
  notifyDecision : Bool
  notifySent : Bool
  notifyDelivered : Bool
  messageParts : List String
deriving DecidableEq

/-- One iteration of the scheduler's per-product loop in `check_products`:
scrape (a failure `continue`s, leaving the item untouched); analyze with
the fallback on failure; build the payload and PATCH it (failure caught
and logged; `newState` reflects the gateway's store); `continue` unless
`changed or price_changed or availability_changed`; compose the message;
resolve the recipient (`continue` on failure); send the notification
(failure caught and logged). -/
def processItem (p : ProductRecord) (env : ItemEnv) : ItemResult :=
  match env.scrape with
  | Except.error _ =>
    { skipped := true, patchAttempted := false, patchPayload := none, newState := p,
      notifyDecision := false, notifySent := false, notifyDelivered := false,
      messageParts := [] }
  | Except.ok sd =>
    let ad := effectiveAnalyze p env
    let payload := buildPatchPayload sd ad
    let newState := if env.patchOk then applyPatch p payload else p
    if !(ad.changed || priceChangedB p sd || availabilityChangedB p sd) then
      { skipped := false, patchAttempted := true, patchPayload := some payload,
        newState := newState, notifyDecision := false, notifySent := false,
        notifyDelivered := false, messageParts := [] }
    else
      let parts := headerLine p sd ::
        ((if priceChangedB p sd then [priceLine p sd] else []) ++
         (if availabilityChangedB p sd then [availLine sd] else []) ++
         (if ad.changed && !(decide (ad.change_type = none) || decide (ad.change_type = some "INITIAL_FETCH"))
          then [offersLine ad] else []))
      match env.resolve with
      | none =>
        { skipped := false, patchAttempted := true, patchPayload := some payload,
          newState := newState, notifyDecision := true, notifySent := false,
          notifyDelivered := false, messageParts := parts }
      | some _ =>
        { skipped := false, patchAttempted := true, patchPayload := some payload,
          newState := newState, notifyDecision := true, notifySent := true,
          notifyDelivered := env.notifyOk, messageParts := parts }

/-- The per-item loop of `check_products`: the iterations share no state,
so the cycle is the map of `processItem` over the items with their call
outcomes. -/
def runCycleItems (items : List (ProductRecord × ItemEnv)) : List ItemResult :=
  items.map (fun pe => processItem pe.1 pe.2)

/-- `check_products`: a listing-fetch failure aborts the whole cycle
(`return`), otherwise every fetched item is processed. -/
def check_products (fetchList : Except String (List (ProductRecord × ItemEnv))) :
    Option (List ItemResult) :=
  match fetchList with
  | Except.error _ => none
  | Except.ok items => some (runCycleItems items)

/-! ### Concrete fixtures used by counterexamples and witnesses -/

/-- Raw offer: HDFC, no card type, discount 100. -/
def oHdfc100 : RawOffer := ⟨some (PyVal.str "HDFC"), none, some (PyVal.str "100"), none, none⟩

/-- Raw offer: HDFC, no card type, discount 200 — same sort key as `oHdfc100`. -/
def oHdfc200 : RawOffer := ⟨some (PyVal.str "HDFC"), none, some (PyVal.str "200"), none, none⟩

/-- Raw offer: SBI debit. -/
def oSbi : RawOffer :=
  ⟨some (PyVal.str "SBI"), some (PyVal.str "debit"), some (PyVal.str "₹500"), none,
   some (PyVal.str "1000")⟩

/-- Raw offer whose card type is a whitespace-only (truthy) string. -/
def oWsCard : RawOffer := ⟨some (PyVal.str "HDFC"), some (PyVal.str " "), none, none, none⟩

/-- The spec's end-to-end raw offer:
`{bank:" hdfc ", cardType:"credit", discount:"₹1,000", minTxn:"2000"}`. -/
def oSpecRaw : RawOffer :=
  ⟨some (PyVal.str " hdfc "), some (PyVal.str "credit"), some (PyVal.str "₹1,000"),
   some (PyVal.str "2000"), none⟩

/-- A scrape response with no data at all. -/
def sdEmpty : ScrapeData := ⟨[], none, none, none, none⟩

/-- A scrape response carrying a price, a name, availability and a
deliverability verdict. -/
def sdDeliver : ScrapeData := ⟨[], some 600, some "Phone X", some true, some true⟩

/-- A freshly tracked product: nothing stored yet. -/
def pBlank : ProductRecord :=
  ⟨1, 1, "http://example/p", "flipkart", none, none, none, none, none, []⟩

/-- A product with stored name, price, availability, hash and one stored
bank-offer row. -/
def pStored : ProductRecord :=
  ⟨2, 1, "http://example/q", "flipkart", some "Phone", some 500, some true, some true,
   some "oldhash", [⟨oHdfc100, "offhash"⟩]⟩

/-- A vivo product whose stored offer hash is the hash of the empty list. -/
def pTrack : ProductRecord :=
  ⟨3, 1, "http://example/r", "vivo", none, some 500, some true, none,
   some (compute_hash (normalize_offers [])), []⟩

/-- Env: first-ever check — scrape succeeds with no data, analyze succeeds
against no previous hash, patch and resolution succeed. -/
def envInitial : ItemEnv :=
  ⟨Except.ok sdEmpty, Except.ok (offerEngineAnalyze [] none), true, some "42", true⟩

/-- Env: scrape succeeds, the offer-analysis call fails after retries. -/
def envAnalyzeDown : ItemEnv :=
  ⟨Except.ok sdEmpty, Except.error "offer engine unreachable", true, some "42", true⟩

/-- Env: the scrape call fails after retries. -/
def envScrapeDown : ItemEnv :=
  ⟨Except.error "scraper unreachable", Except.ok (offerEngineAnalyze [] none), true,
   some "42", true⟩

/-- Env: scrape succeeds with `sdDeliver`; analyze succeeds against the
stored empty-list hash. -/
def envDeliver : ItemEnv :=
  ⟨Except.ok sdDeliver,
   Except.ok (offerEngineAnalyze [] (some (compute_hash (normalize_offers [])))), true,
   some "42", true⟩

/-! ### Character and string-operation lemmas -/

theorem charToNat_ofNat {n : Nat} (h : n < 55296) : (Char.ofNat n).toNat = n := by
  rw [Char.ofNat, dif_pos (Or.inl h)]
  rfl

theorem charEq_of_toNat {a b : Char} (h : a.toNat = b.toNat) : a = b :=
  Char.ext (UInt32.ext h)

theorem toUpper_toNat (c : Char) :
    (Char.toUpper c).toNat = if 97 ≤ c.toNat ∧ c.toNat ≤ 122 then c.toNat - 32 else c.toNat := by
  by_cases h : 97 ≤ c.toNat ∧ c.toNat ≤ 122
  · have h32 : c.toNat - 32 < 55296 := by omega
    simp [Char.toUpper, h, charToNat_ofNat h32]
  · simp [Char.toUpper, h]

theorem toLower_toNat (c : Char) :
    (Char.toLower c).toNat = if 65 ≤ c.toNat ∧ c.toNat ≤ 90 then c.toNat + 32 else c.toNat := by
  by_cases h : 65 ≤ c.toNat ∧ c.toNat ≤ 90
  · have h32 : c.toNat + 32 < 55296 := by
      rcases h with ⟨_, h2⟩
      omega
    simp [Char.toLower, h, charToNat_ofNat h32]
  · simp [Char.toLower, h]

theorem toUpper_eq_self_of_not {c : Char} (h : ¬(97 ≤ c.toNat ∧ c.toNat ≤ 122)) :
    Char.toUpper c = c := by
  simp only [Char.toUpper]
  rw [if_neg (by omega)]

theorem toLower_eq_self_of_not {c : Char} (h : ¬(65 ≤ c.toNat ∧ c.toNat ≤ 90)) :
    Char.toLower c = c := by
  simp only [Char.toLower]
  rw [if_neg (by omega)]

theorem toUpper_toUpper (c : Char) : (Char.toUpper c).toUpper = Char.toUpper c := by
  by_cases h : 97 ≤ c.toNat ∧ c.toNat ≤ 122
  · apply toUpper_eq_self_of_not
    rw [toUpper_toNat, if_pos h]
    omega
  · rw [toUpper_eq_self_of_not h]
    exact toUpper_eq_self_of_not h

theorem toLower_toLower (c : Char) : (Char.toLower c).toLower = Char.toLower c := by
  by_cases h : 65 ≤ c.toNat ∧ c.toNat ≤ 90
  · apply toLower_eq_self_of_not
    rw [toLower_toNat, if_pos h]
    omega
  · rw [toLower_eq_self_of_not h]
    exact toLower_eq_self_of_not h

theorem pyIsSpace_eq_false_iff (c : Char) :
    pyIsSpace c = false ↔ ¬(c.toNat = 32 ∨ (9 ≤ c.toNat ∧ c.toNat ≤ 13)) := by
  unfold pyIsSpace
  constructor
  · intro h hmem
    simp only [Bool.or_eq_false_iff, decide_eq_false_iff_not] at h
    omega
  · intro h
    simp only [Bool.or_eq_false_iff, decide_eq_false_iff_not]
    omega

theorem pyIsSpace_toUpper (c : Char) : pyIsSpace (Char.toUpper c) = pyIsSpace c := by
  by_cases h : 97 ≤ c.toNat ∧ c.toNat ≤ 122
  · have ht := toUpper_toNat c
    rw [if_pos h] at ht
    have h1 : pyIsSpace (Char.toUpper c) = false := by
      rw [pyIsSpace_eq_false_iff, ht]
      omega
    have h2 : pyIsSpace c = false := by
      rw [pyIsSpace_eq_false_iff]
      omega
    rw [h1, h2]
  · rw [toUpper_eq_self_of_not h]

theorem pyIsSpace_toLower (c : Char) : pyIsSpace (Char.toLower c) = pyIsSpace c := by
  by_cases h : 65 ≤ c.toNat ∧ c.toNat ≤ 90
  · have ht := toLower_toNat c
    rw [if_pos h] at ht
    have h1 : pyIsSpace (Char.toLower c) = false := by
      rw [pyIsSpace_eq_false_iff, ht]
      omega
    have h2 : pyIsSpace c = false := by
      rw [pyIsSpace_eq_false_iff]
      omega
    rw [h1, h2]
  · rw [toLower_eq_self_of_not h]

/-! ### Strip lemmas -/

theorem head?_dropWhile (p : Char → Bool) (l : List Char) :
    ∀ c, (l.dropWhile p).head? = some c → p c = false := by
  induction l with
  | nil => intro c h; simp [List.dropWhile] at h
  | cons a l ih =>
    intro c h
    rw [List.dropWhile_cons] at h
    split at h
    · exact ih c h
    · next hpa =>
      simp only [List.head?_cons, Option.some.injEq] at h
      subst h
      simpa using hpa

theorem dropWhile_eq_self_of_head (p : Char → Bool) (l : List Char)
    (h : ∀ c, l.head? = some c → p c = false) : l.dropWhile p = l := by
  cases l with
  | nil => rfl
  | cons a l =>
    have ha := h a rfl
    rw [List.dropWhile_cons, if_neg (by simp [ha])]

theorem getLast?_dropWhile (p : Char → Bool) (l : List Char)
    (h : l.dropWhile p ≠ []) : (l.dropWhile p).getLast? = l.getLast? := by
  obtain ⟨t, ht⟩ := List.dropWhile_suffix (l := l) p
  conv_rhs => rw [← ht]
  rw [List.getLast?_append_of_ne_nil _ h]

theorem head?_stripList (l : List Char) :
    ∀ c, (stripList l).head? = some c → pyIsSpace c = false := by
  intro c h
  unfold stripList at h
  rw [List.head?_reverse] at h
  have hne : (l.dropWhile pyIsSpace).reverse.dropWhile pyIsSpace ≠ [] := by
    intro he
    rw [he] at h
    simp at h
  rw [getLast?_dropWhile _ _ hne, List.getLast?_reverse] at h
  exact head?_dropWhile pyIsSpace l c h

theorem getLast?_stripList (l : List Char) :
    ∀ c, (stripList l).getLast? = some c → pyIsSpace c = false := by
  intro c h
  unfold stripList at h
  rw [List.getLast?_reverse] at h
  exact head?_dropWhile pyIsSpace _ c h

theorem stripList_eq_self (l : List Char)
    (h1 : ∀ c, l.head? = some c → pyIsSpace c = false)
    (h2 : ∀ c, l.getLast? = some c → pyIsSpace c = false) : stripList l = l := by
  unfold stripList
  rw [dropWhile_eq_self_of_head _ _ h1]
  rw [dropWhile_eq_self_of_head _ _ (fun c hc => h2 c (by rwa [List.head?_reverse] at hc))]
  exact List.reverse_reverse l

theorem stripList_idem (l : List Char) : stripList (stripList l) = stripList l :=
  stripList_eq_self _ (head?_stripList l) (getLast?_stripList l)

theorem stripList_map (f : Char → Char) (hf : ∀ c, pyIsSpace (f c) = pyIsSpace c)
    (l : List Char) : stripList (l.map f) = (stripList l).map f := by
  have hpf : pyIsSpace ∘ f = pyIsSpace := funext hf
  unfold stripList
  rw [List.dropWhile_map, hpf, ← List.map_reverse, List.dropWhile_map, hpf, List.map_reverse]

/-! ### Lemmas about the Python string and tuple order -/

theorem listLtB_irrefl : ∀ l, listLtB l l = false
  | [] => rfl
  | a :: as => by
    unfold listLtB
    rw [if_neg (Nat.lt_irrefl _), if_neg (Nat.lt_irrefl _)]
    exact listLtB_irrefl as

theorem listLtB_asymm : ∀ l₁ l₂, listLtB l₁ l₂ = true → listLtB l₂ l₁ = false
  | [], [] => by intro h; simp [listLtB] at h
  | [], _ :: _ => by intro _; rfl
  | _ :: _, [] => by intro h; simp [listLtB] at h
  | a :: as, b :: bs => by
    intro h
    unfold listLtB at h ⊢
    by_cases hab : a.toNat < b.toNat
    · rw [if_neg (by omega), if_pos hab]
    · by_cases hba : b.toNat < a.toNat
      · rw [if_neg hab, if_pos hba] at h
        exact absurd h (by simp)
      · rw [if_neg hab, if_neg hba] at h
        rw [if_neg hba, if_neg hab]
        exact listLtB_asymm as bs h

theorem listLtB_connex : ∀ l₁ l₂, listLtB l₁ l₂ = false → listLtB l₂ l₁ = false → l₁ = l₂
  | [], [] => by intro _ _; rfl
  | [], _ :: _ => by intro h _; simp [listLtB] at h
  | _ :: _, [] => by intro _ h; simp [listLtB] at h
  | a :: as, b :: bs => by
    intro h1 h2
    unfold listLtB at h1 h2
    by_cases hab : a.toNat < b.toNat
    · rw [if_pos hab] at h1
      exact absurd h1 (by simp)
    · by_cases hba : b.toNat < a.toNat
      · rw [if_pos hba] at h2
        exact absurd h2 (by simp)
      · rw [if_neg hab, if_neg hba] at h1
        rw [if_neg hba, if_neg hab] at h2
        have heq : a = b := charEq_of_toNat (by omega)
        rw [heq, listLtB_connex as bs h1 h2]

theorem listLtB_trans : ∀ l₁ l₂ l₃, listLtB l₁ l₂ = true → listLtB l₂ l₃ = true →
    listLtB l₁ l₃ = true
  | [], [], _ => by intro h _; simp [listLtB] at h
  | [], _ :: _, [] => by intro _ h; simp [listLtB] at h
  | [], _ :: _, _ :: _ => by intro _ _; rfl
  | _ :: _, [], _ => by intro h _; simp [listLtB] at h
  | _ :: _, _ :: _, [] => by intro _ h; simp [listLtB] at h
  | a :: as, b :: bs, c :: cs => by
    intro h1 h2
    unfold listLtB at h1 h2 ⊢
    by_cases hab : a.toNat < b.toNat <;> by_cases hbc : b.toNat < c.toNat
    · rw [if_pos (by omega)]
    · by_cases hcb : c.toNat < b.toNat
      · rw [if_neg hbc, if_pos hcb] at h2
        exact absurd h2 (by simp)
      · rw [if_pos (by omega)]
    · by_cases hba : b.toNat < a.toNat
      · rw [if_neg hab, if_pos hba] at h1
        exact absurd h1 (by simp)
      · rw [if_pos (by omega)]
    · by_cases hba : b.toNat < a.toNat
      · rw [if_neg hab, if_pos hba] at h1
        exact absurd h1 (by simp)
      · by_cases hcb : c.toNat < b.toNat
        · rw [if_neg hbc, if_pos hcb] at h2
          exact absurd h2 (by simp)
        · rw [if_neg hab, if_neg hba] at h1
          rw [if_neg hbc, if_neg hcb] at h2
          rw [if_neg (by omega), if_neg (by omega)]
          exact listLtB_trans as bs cs h1 h2

theorem strLtB_connex {a b : String} (h1 : strLtB a b = false) (h2 : strLtB b a = false) :
    a = b :=
  String.ext (listLtB_connex _ _ h1 h2)

theorem strLtB_asymm {a b : String} (h : strLtB a b = true) : strLtB b a = false :=
  listLtB_asymm _ _ h

theorem strLtB_trans {a b c : String} (h1 : strLtB a b = true) (h2 : strLtB b c = true) :
    strLtB a c = true :=
  listLtB_trans _ _ _ h1 h2

theorem strLtB_irrefl (a : String) : strLtB a a = false :=
  listLtB_irrefl _

theorem keyLeB_total (u v : String × String) : keyLeB u v = true ∨ keyLeB v u = true := by
  unfold keyLeB
  by_cases h1 : strLtB u.1 v.1 = true
  · left
    simp [h1]
  · by_cases h2 : strLtB v.1 u.1 = true
    · right
      simp [h2]
    · have he : u.1 = v.1 := strLtB_connex (by simpa using h1) (by simpa using h2)
      by_cases h3 : strLtB v.2 u.2 = true
      · right
        have h4 := strLtB_asymm h3
        simp [he, strLeB, h4]
      · left
        simp [he, strLeB, h3]

theorem keyLeB_trans {u v w : String × String} (h1 : keyLeB u v = true)
    (h2 : keyLeB v w = true) : keyLeB u w = true := by
  unfold keyLeB at h1 h2 ⊢
  simp only [Bool.or_eq_true, Bool.and_eq_true, decide_eq_true_eq] at h1 h2 ⊢
  rcases h1 with h1 | ⟨h1e, h1c⟩
  · rcases h2 with h2 | ⟨h2e, h2c⟩
    · exact Or.inl (strLtB_trans h1 h2)
    · rw [h2e] at h1
      exact Or.inl h1
  · rcases h2 with h2 | ⟨h2e, h2c⟩
    · rw [h1e]
      exact Or.inl h2
    · refine Or.inr ⟨h1e.trans h2e, ?_⟩
      unfold strLeB at h1c h2c ⊢
      simp only [Bool.not_eq_true'] at h1c h2c ⊢
      cases hz : strLtB w.2 u.2
      · rfl
      · exfalso
        cases hvw : strLtB v.2 w.2
        · have he : v.2 = w.2 := strLtB_connex hvw h2c
          rw [← he] at hz
          rw [hz] at h1c
          exact Bool.noConfusion h1c
        · have hvu : strLtB v.2 u.2 = true := strLtB_trans hvw hz
          rw [hvu] at h1c
          exact Bool.noConfusion h1c

theorem keyLeB_antisymm {u v : String × String} (h1 : keyLeB u v = true)
    (h2 : keyLeB v u = true) : u = v := by
  unfold keyLeB at h1 h2
  simp only [Bool.or_eq_true, Bool.and_eq_true, decide_eq_true_eq] at h1 h2
  rcases h1 with h1 | ⟨h1e, h1c⟩
  · rcases h2 with h2 | ⟨h2e, h2c⟩
    · exact absurd h2 (by rw [strLtB_asymm h1]; simp)
    · rw [h2e] at h1
      exact absurd h1 (by rw [strLtB_irrefl]; simp)
  · rcases h2 with h2 | ⟨h2e, h2c⟩
    · rw [h1e] at h2
      exact absurd h2 (by rw [strLtB_irrefl]; simp)
    · unfold strLeB at h1c h2c
      simp only [Bool.not_eq_true'] at h1c h2c
      have hc : u.2 = v.2 := strLtB_connex h2c h1c
      exact Prod.ext h1e hc

instance offerLeTotal : IsTotal RawOffer offerLe :=
  ⟨fun a b => keyLeB_total (sortKey a) (sortKey b)⟩

instance offerLeTrans : IsTrans RawOffer offerLe :=
  ⟨fun _ _ _ h1 h2 => keyLeB_trans h1 h2⟩

theorem offerLe_antisymm_key {a b : RawOffer} (h1 : offerLe a b) (h2 : offerLe b a) :
    sortKey a = sortKey b :=
  keyLeB_antisymm h1 h2

/-! ### Decimal rendering and parsing lemmas -/

theorem digitChar_toNat : ∀ d, d < 10 → (Nat.digitChar d).toNat = 48 + d := by decide

theorem digitChar_bound : ∀ d, d < 10 →
    48 ≤ (Nat.digitChar d).toNat ∧ (Nat.digitChar d).toNat ≤ 57 := by decide

theorem toDigitsCore_append (fuel : Nat) : ∀ n acc,
    Nat.toDigitsCore 10 fuel n acc = Nat.toDigitsCore 10 fuel n [] ++ acc := by
  induction fuel with
  | zero => intro n acc; simp [Nat.toDigitsCore]
  | succ fuel ih =>
    intro n acc
    simp only [Nat.toDigitsCore]
    by_cases h : n / 10 = 0
    · rw [if_pos h, if_pos h]
      rfl
    · rw [if_neg h, if_neg h]
      rw [ih (n / 10) (Nat.digitChar (n % 10) :: acc), ih (n / 10) [Nat.digitChar (n % 10)]]
      simp [List.append_assoc]

theorem toDigitsCore_spec : ∀ fuel n, n < fuel →
    Nat.toDigitsCore 10 fuel n [] ≠ [] ∧
    (∀ c ∈ Nat.toDigitsCore 10 fuel n [], 48 ≤ c.toNat ∧ c.toNat ≤ 57) ∧
    parseDigits (Nat.toDigitsCore 10 fuel n []) = n := by
  intro fuel
  induction fuel with
  | zero => intro n h; omega
  | succ fuel ih =>
    intro n h
    simp only [Nat.toDigitsCore]
    by_cases h0 : n / 10 = 0
    · rw [if_pos h0]
      have hn : n < 10 := by omega
      refine ⟨by simp, ?_, ?_⟩
      · intro c hc
        simp only [List.mem_singleton] at hc
        subst hc
        rw [Nat.mod_eq_of_lt hn]
        exact digitChar_bound n hn
      · unfold parseDigits
        simp only [List.foldl_cons, List.foldl_nil, Nat.mul_zero, Nat.zero_add]
        rw [Nat.mod_eq_of_lt hn, digitChar_toNat n hn]
        omega
    · rw [if_neg h0]
      rw [toDigitsCore_append fuel (n / 10) [Nat.digitChar (n % 10)]]
      have hdiv : n / 10 < fuel := by
        have hlt : n / 10 < n := Nat.div_lt_self (by omega) (by omega)
        omega
      obtain ⟨hne, hdig, hparse⟩ := ih (n / 10) hdiv
      have hmod : n % 10 < 10 := Nat.mod_lt _ (by omega)
      refine ⟨by simp, ?_, ?_⟩
      · intro c hc
        rw [List.mem_append] at hc
        rcases hc with hc | hc
        · exact hdig c hc
        · simp only [List.mem_singleton] at hc
          subst hc
          exact digitChar_bound _ hmod
      · unfold parseDigits
        rw [List.foldl_append]
        simp only [List.foldl_cons, List.foldl_nil]
        unfold parseDigits at hparse
        rw [hparse, digitChar_toNat _ hmod]
        omega

theorem repr_data (n : Nat) : (Nat.repr n).data = Nat.toDigitsCore 10 (n + 1) n [] := rfl

theorem strip_currency_int (n : Nat) : strip_currency (PyVal.int n) = n := by
  obtain ⟨hne, hdig, hparse⟩ := toDigitsCore_spec (n + 1) n (Nat.lt_succ_self n)
  show (if ((((Nat.repr n).data).filter
        (fun c => !(c = '₹' || c = ',' || pyIsSpace c))).filter pyIsDigit).isEmpty
      then 0
      else parseDigits ((((Nat.repr n).data).filter
        (fun c => !(c = '₹' || c = ',' || pyIsSpace c))).filter pyIsDigit)) = n
  rw [repr_data]
  have hf1 : (Nat.toDigitsCore 10 (n + 1) n []).filter
      (fun c => !(c = '₹' || c = ',' || pyIsSpace c)) = Nat.toDigitsCore 10 (n + 1) n [] := by
    rw [List.filter_eq_self]
    intro a ha
    have hb := hdig a ha
    have h1 : a ≠ '₹' := by
      intro he
      rw [he] at hb
      exact absurd hb (by decide)
    have h2 : a ≠ ',' := by
      intro he
      rw [he] at hb
      exact absurd hb (by decide)
    have h3 : pyIsSpace a = false := by
      rw [pyIsSpace_eq_false_iff]
      omega
    simp [h1, h2, h3]
  have hf2 : (Nat.toDigitsCore 10 (n + 1) n []).filter pyIsDigit =
      Nat.toDigitsCore 10 (n + 1) n [] := by
    rw [List.filter_eq_self]
    intro a ha
    have hb := hdig a ha
    simp only [pyIsDigit, Bool.and_eq_true, decide_eq_true_eq]
    omega
  rw [hf1, hf2, if_neg (by simp [List.isEmpty_iff, hne])]
  exact hparse

/-! ### Retry-loop lemmas -/

theorem retryLoop_fail {α : Type} (f : Nat → Except String α) (e : Nat → String)
    (hf : ∀ i, f i = Except.error (e i)) :
    ∀ remaining attempt last, retryLoop f attempt remaining last =
      ⟨Except.error (if remaining = 0 then last else some (e (attempt + remaining - 1))),
       remaining, (List.range remaining).map (fun i => 2 ^ (attempt + i))⟩ := by
  intro remaining
  induction remaining with
  | zero => intro attempt last; simp [retryLoop]
  | succ rem ih =>
    intro attempt last
    simp only [retryLoop, hf attempt]
    rw [ih (attempt + 1) (some (e attempt))]
    by_cases h0 : rem = 0
    · subst h0
      simp [List.range_succ_eq_map]
    · rw [if_neg h0, if_neg (Nat.succ_ne_zero rem)]
      have h1 : attempt + 1 + rem - 1 = attempt + (rem + 1) - 1 := by omega
      rw [h1]
      have h2 : (2 : Nat) ^ attempt :: (List.range rem).map (fun i => 2 ^ (attempt + 1 + i))
          = (List.range (rem + 1)).map (fun i => 2 ^ (attempt + i)) := by
        rw [List.range_succ_eq_map, List.map_cons, List.map_map]
        congr 1
        apply List.map_congr_left
        intro a _
        show 2 ^ (attempt + 1 + a) = 2 ^ (attempt + (a + 1))
        congr 1
        omega
      rw [h2]

/-! ### Fixed-point lemmas for the normalizer -/

theorem strMk_ne_empty (c : Char) (l : List Char) : (⟨c :: l⟩ : String) ≠ "" := by
  intro h
  simpa using congrArg String.data h

theorem getLast?_map (f : Char → Char) (l : List Char) :
    (l.map f).getLast? = Option.map f l.getLast? := by
  rw [← List.head?_reverse, ← List.map_reverse, List.head?_map, List.head?_reverse]

theorem bank_fix (s : String) :
    pyUpper (pyStrip (pyUpper (pyStrip s))) = pyUpper (pyStrip s) := by
  show (⟨(stripList (((stripList s.data)).map Char.toUpper)).map Char.toUpper⟩ : String)
      = ⟨(stripList s.data).map Char.toUpper⟩
  rw [stripList_map Char.toUpper pyIsSpace_toUpper, stripList_idem, List.map_map]
  congr 1
  apply List.map_congr_left
  intro a _
  exact toUpper_toUpper a

theorem cap_ne_empty (s : String) (hne : pyStrip s ≠ "") :
    pyCapitalize (pyStrip s) ≠ "" := by
  unfold pyCapitalize pyStrip at *
  cases ht : stripList s.data with
  | nil => exact absurd (by rw [ht]) hne
  | cons h r => exact strMk_ne_empty _ _

theorem cap_fix (s : String) (hne : pyStrip s ≠ "") :
    pyCapitalize (pyStrip (pyCapitalize (pyStrip s))) = pyCapitalize (pyStrip s) := by
  unfold pyCapitalize pyStrip at *
  cases ht : stripList s.data with
  | nil => exact absurd (by rw [ht]) hne
  | cons h r =>
    show (⟨capList (stripList (capList (h :: r)))⟩ : String) = ⟨capList (h :: r)⟩
    have hhead : pyIsSpace h = false := head?_stripList s.data h (by rw [ht]; rfl)
    have hstrip : stripList (capList (h :: r)) = capList (h :: r) := by
      apply stripList_eq_self
      · intro c hc
        simp only [capList, List.head?_cons, Option.some.injEq] at hc
        subst hc
        rw [pyIsSpace_toUpper]
        exact hhead
      · intro c hc
        cases hr : r with
        | nil =>
          rw [hr] at hc
          simp only [capList, List.map_nil, List.getLast?_singleton, Option.some.injEq] at hc
          subst hc
          rw [pyIsSpace_toUpper]
          exact hhead
        | cons r0 rs =>
          have hrne : (r.map Char.toLower) ≠ [] := by rw [hr]; simp
          have hc' : (capList (h :: r)).getLast? = (r.map Char.toLower).getLast? := by
            show ((Char.toUpper h :: []) ++ r.map Char.toLower).getLast? = _
            rw [List.getLast?_append_of_ne_nil _ hrne]
          rw [hc', getLast?_map] at hc
          obtain ⟨lc, hlc, rfl⟩ := Option.map_eq_some'.mp hc
          have hlast : (stripList s.data).getLast? = some lc := by
            rw [ht]
            show ((h :: []) ++ r).getLast? = some lc
            rw [List.getLast?_append_of_ne_nil _ (by rw [hr]; simp)]
            exact hlc
          have := getLast?_stripList s.data lc hlast
          rw [pyIsSpace_toLower]
          exact this
    rw [hstrip]
    show (⟨capList (Char.toUpper h :: r.map Char.toLower)⟩ : String) = _
    simp only [capList, List.map_map]
    congr 2
    · exact toUpper_toUpper h
    · apply List.map_congr_left
      intro a _
      exact toLower_toLower a

theorem normalizeOne_fix (o : RawOffer)
    (h : pyTruthy (o.card_type.getD PyVal.none) = true →
         pyStrip (pyStr (o.card_type.getD PyVal.none)) ≠ "") :
    normalizeOne (normalizeOne o) = normalizeOne o := by
  cases htr : pyTruthy (o.card_type.getD PyVal.none) with
  | false =>
    simp only [normalizeOne, htr, if_false, Bool.false_eq_true, Option.getD_some]
    simp only [pyTruthy, minTxnVal, Option.getD_some]
    congr 1
    · exact congrArg (fun x => some (PyVal.str x)) (bank_fix _)
    · exact congrArg (fun x => some (PyVal.int x)) (strip_currency_int _)
    · exact congrArg (fun x => some (PyVal.int x)) (strip_currency_int _)
  | true =>
    have hne := h htr
    have hcne : pyCapitalize (pyStrip (pyStr (o.card_type.getD PyVal.none))) ≠ "" :=
      cap_ne_empty _ hne
    have htr2 : pyTruthy
        (PyVal.str (pyCapitalize (pyStrip (pyStr (o.card_type.getD PyVal.none))))) = true := by
      simp [pyTruthy, hcne]
    simp only [normalizeOne, htr, if_true, Option.getD_some, minTxnVal, htr2]
    congr 1
    · exact congrArg (fun x => some (PyVal.str x)) (bank_fix _)
    · exact congrArg (fun x => some (PyVal.str x)) (cap_fix _ hne)
    · exact congrArg (fun x => some (PyVal.int x)) (strip_currency_int _)
    · exact congrArg (fun x => some (PyVal.int x)) (strip_currency_int _)

/-! ### Characterization of one item's processing -/

theorem applyPatch_fields (p : ProductRecord) (sd : ScrapeData) (ad : AnalyzeData) :
    (applyPatch p (buildPatchPayload sd ad)).product_name =
      (match sd.product_name with
       | some s => if s = "" then p.product_name else some s
       | none => p.product_name) ∧
    (applyPatch p (buildPatchPayload sd ad)).last_price =
      (match sd.price with | some v => some v | none => p.last_price) ∧
    (applyPatch p (buildPatchPayload sd ad)).last_availability =
      (match sd.availability with | some b => some b | none => p.last_availability) ∧
    (applyPatch p (buildPatchPayload sd ad)).last_offer_hash =
      (match ad.new_hash with | some h => some h | none => p.last_offer_hash) ∧
    (applyPatch p (buildPatchPayload sd ad)).bank_offers =
      ad.normalized_offers.map (fun o => ⟨o, per_offer_hash o⟩) ∧
    (applyPatch p (buildPatchPayload sd ad)).last_deliverable = p.last_deliverable := by
  unfold applyPatch buildPatchPayload offersForUpdate
  refine ⟨?_, rfl, rfl, rfl, rfl, rfl⟩
  cases sd.product_name with
  | none => rfl
  | some s =>
    by_cases hs : s = "" <;> simp [hs]

theorem processItem_scrapeFail (p : ProductRecord) (env : ItemEnv) (e : String)
    (hse : env.scrape = Except.error e) :
    processItem p env = ⟨true, false, none, p, false, false, false, []⟩ := by
  simp [processItem, hse]

theorem processItem_ok_common (p : ProductRecord) (env : ItemEnv) (sd : ScrapeData)
    (hs : env.scrape = Except.ok sd) :
    (processItem p env).patchAttempted = true ∧
    (processItem p env).newState =
      (if env.patchOk then applyPatch p (buildPatchPayload sd (effectiveAnalyze p env)) else p) ∧
    (processItem p env).notifySent =
      (((effectiveAnalyze p env).changed || priceChangedB p sd || availabilityChangedB p sd)
        && env.resolve.isSome) ∧
    (processItem p env).messageParts =
      (if ((effectiveAnalyze p env).changed || priceChangedB p sd || availabilityChangedB p sd)
       then headerLine p sd ::
          ((if priceChangedB p sd then [priceLine p sd] else []) ++
           (if availabilityChangedB p sd then [availLine sd] else []) ++
           (if (effectiveAnalyze p env).changed &&
               !(decide ((effectiveAnalyze p env).change_type = none) ||
                 decide ((effectiveAnalyze p env).change_type = some "INITIAL_FETCH"))
            then [offersLine (effectiveAnalyze p env)] else []))
       else []) := by
  cases hg : ((effectiveAnalyze p env).changed || priceChangedB p sd || availabilityChangedB p sd)
  · simp [processItem, hs, hg]
  · cases hr : env.resolve <;> simp [processItem, hs, hg, hr]

/-! ### The claims -/

/-- C1 (counterexample): two raw offers with the same sort key
`("HDFC", "")` but different discounts; swapping them is a permutation, yet
the stable sort preserves the tied order, so the serialized canonical forms
— and hence the digests — differ. -/
theorem C1_counterexample :
    ([oHdfc100, oHdfc200] : List RawOffer).Perm [oHdfc200, oHdfc100] ∧
    compute_hash (normalize_offers [oHdfc100, oHdfc200]) ≠
      compute_hash (normalize_offers [oHdfc200, oHdfc100]) := by
  constructor
  · decide
  · decide

/-- C1 (amended): for raw-offer lists whose normalized forms have pairwise
distinct sort keys `(bank_name, card_type or "")`, `compute_hash` after
`normalize_offers` is invariant under any permutation of the input; with
duplicated sort keys the stable sort preserves input order among ties, so
permuting key-tied offers that differ in other fields can change the
digest. -/
theorem C1_amended_hash_permutation (l₁ l₂ : List RawOffer) (hperm : l₁.Perm l₂)
    (hkeys : ((l₁.map normalizeOne).map sortKey).Nodup) :
    compute_hash (normalize_offers l₁) = compute_hash (normalize_offers l₂) := by
  unfold normalize_offers
  apply congrArg
  have hpn : (l₁.map normalizeOne).Perm (l₂.map normalizeOne) := hperm.map normalizeOne
  have hps : (List.insertionSort offerLe (l₁.map normalizeOne)).Perm
      (List.insertionSort offerLe (l₂.map normalizeOne)) :=
    (List.perm_insertionSort offerLe _).trans
      (hpn.trans (List.perm_insertionSort offerLe _).symm)
  have hsorted₁ : List.Sorted offerLe (List.insertionSort offerLe (l₁.map normalizeOne)) :=
    List.sorted_insertionSort offerLe _
  have hsorted₂ : List.Sorted offerLe (List.insertionSort offerLe (l₂.map normalizeOne)) :=
    List.sorted_insertionSort offerLe _
  have hkeys₁ : ((List.insertionSort offerLe (l₁.map normalizeOne)).map sortKey).Nodup :=
    (((List.perm_insertionSort offerLe (l₁.map normalizeOne)).map sortKey).nodup_iff).mpr hkeys
  have hkeys₂ : ((List.insertionSort offerLe (l₂.map normalizeOne)).map sortKey).Nodup :=
    ((hps.map sortKey).nodup_iff).mp hkeys₁
  have hpw₁ := List.Pairwise.and hsorted₁ (List.pairwise_map.mp hkeys₁)
  have hpw₂ := List.Pairwise.and hsorted₂ (List.pairwise_map.mp hkeys₂)
  haveI : IsAntisymm RawOffer (fun a b => offerLe a b ∧ sortKey a ≠ sortKey b) :=
    ⟨fun _ _ h1 h2 => absurd (offerLe_antisymm_key h1.1 h2.1) h1.2⟩
  exact List.eq_of_perm_of_sorted hps hpw₁ hpw₂

/-- C1 (witness): two offers with distinct sort keys hash identically in
either order, by the amended theorem. -/
theorem C1_witness :
    ([oSbi, oHdfc100] : List RawOffer).Perm [oHdfc100, oSbi] ∧
    compute_hash (normalize_offers [oSbi, oHdfc100]) =
      compute_hash (normalize_offers [oHdfc100, oSbi]) :=
  ⟨by decide, C1_amended_hash_permutation _ _ (by decide) (by decide)⟩

/-- C2 (counterexample): on a first-ever check (`change_type =
INITIAL_FETCH`) with no price data and no availability data, the
scheduler still sends a notification — the gate is
`changed or price_changed or availability_changed`, and `changed` is true
for `INITIAL_FETCH`; only the message line is suppressed, leaving a
header-only notification. -/
theorem C2_counterexample :
    (effectiveAnalyze pBlank envInitial).change_type = some "INITIAL_FETCH" ∧
    priceChangedB pBlank sdEmpty = false ∧
    availabilityChangedB pBlank sdEmpty = false ∧
    (processItem pBlank envInitial).notifySent = true ∧
    (processItem pBlank envInitial).messageParts =
      ["🔔 Update for product: http://example/p"] := by
  refine ⟨by decide, by decide, by decide, by decide, by decide⟩

/-- C2 (amended): when scrape and analyze succeed, a notification is
attempted iff `changed OR priceChanged OR availabilityChanged` and the
recipient resolution succeeds — `changed` includes `INITIAL_FETCH`, which
the claim excluded.  In particular a first-ever check (`previous_hash`
absent) with no price or availability change still notifies, with a
message consisting of the header line only (the "bank offers changed"
line alone is suppressed for `INITIAL_FETCH`). -/
theorem C2_amended_notification_gate (p : ProductRecord) (env : ItemEnv) (sd : ScrapeData)
    (hs : env.scrape = Except.ok sd) :
    (∀ ad : AnalyzeData, env.analyze = Except.ok ad →
      (processItem p env).notifySent =
        ((ad.changed || priceChangedB p sd || availabilityChangedB p sd)
          && env.resolve.isSome)) ∧
    (∀ offers : List RawOffer,
      env.analyze = Except.ok (offerEngineAnalyze offers p.last_offer_hash) →
      p.last_offer_hash = none →
      priceChangedB p sd = false → availabilityChangedB p sd = false →
      (processItem p env).notifySent = env.resolve.isSome ∧
      (processItem p env).messageParts = [headerLine p sd]) := by
  obtain ⟨_, _, hsent, hparts⟩ := processItem_ok_common p env sd hs
  constructor
  · intro ad ha
    have he : effectiveAnalyze p env = ad := by simp [effectiveAnalyze, ha]
    rw [hsent, he]
  · intro offers ha hph hpc hac
    have he : effectiveAnalyze p env = offerEngineAnalyze offers p.last_offer_hash := by
      simp [effectiveAnalyze, ha]
    have hch : (offerEngineAnalyze offers p.last_offer_hash).changed = true := by
      rw [hph]
      simp [offerEngineAnalyze]
    have hct : (offerEngineAnalyze offers p.last_offer_hash).change_type =
        some "INITIAL_FETCH" := by
      rw [hph]
      simp [offerEngineAnalyze]
    constructor
    · rw [hsent, he, hch, hpc, hac]
      simp
    · rw [hparts, he, hch, hpc, hac, hct]
      simp

/-- C2 (witness): the amended gate applied to a concrete first-ever check
with successful resolution. -/
theorem C2_witness :
    (processItem pBlank envInitial).notifySent = true ∧
    (processItem pBlank envInitial).messageParts = [headerLine pBlank sdEmpty] := by
  have h := (C2_amended_notification_gate pBlank envInitial sdEmpty rfl).2 [] rfl rfl
    (by decide) (by decide)
  exact ⟨h.1.trans rfl, h.2⟩

/-- C3: neither scraper lets a failure escape: whatever the fetch error
(after retries) and whatever the extraction functions, `scrape` returns
the fully-populated failure dictionary — every data field null, the
bank-offer list empty and the exception text under the `error` key (the
Flipkart result carries no `deliverable` key at all; an absent key reads
as null at the boundary). -/
theorem C3_scraper_failure_containment {P Q : Type}
    (en : P → Option String) (ep : P → Option Int) (ea : P → Option Bool)
    (eb : P → List RawOffer)
    (vn : Q → Option String) (vp : Q → Option Int) (va : Q → Option Bool)
    (vd : Q → Option String → Option Bool) (e : String) (pincode : Option String) :
    FlipkartScraper.scrape en ep ea eb (Except.error e) =
      ⟨none, none, none, [], "flipkart", some e⟩ ∧
    VivoScraper.scrape vn vp va vd (Except.error e) pincode =
      ⟨none, none, none, none, [], "vivo", some e⟩ :=
  ⟨rfl, rfl⟩

/-- C4: within one cycle the items are processed independently: the cycle
processes every fetched item (same length), and the result at position `i`
is a function of item `i`'s record and its own call outcomes alone — two
cycles whose item lists agree at position `i` agree on the result at `i`,
whatever happens to the other items. -/
theorem C4_cycle_isolation (xs ys : List (ProductRecord × ItemEnv)) (i : Nat)
    (pe : ProductRecord × ItemEnv) (hx : xs[i]? = some pe) (hy : ys[i]? = some pe) :
    (runCycleItems xs).length = xs.length ∧
    (runCycleItems xs)[i]? = some (processItem pe.1 pe.2) ∧
    (runCycleItems ys)[i]? = some (processItem pe.1 pe.2) := by
  refine ⟨List.length_map _ _, ?_, ?_⟩
  · unfold runCycleItems
    rw [List.getElem?_map, hx]
    rfl
  · unfold runCycleItems
    rw [List.getElem?_map, hy]
    rfl

/-- C4 (witness): three items where item 2's scrape always fails versus
the same three items with item 2 succeeding — item 3 is processed to the
identical result in both cycles. -/
theorem C4_witness :
    (runCycleItems [(pBlank, envInitial), (pStored, envScrapeDown), (pTrack, envDeliver)])[2]? =
      some (processItem pTrack envDeliver) ∧
    (runCycleItems [(pBlank, envInitial), (pStored, envInitial), (pTrack, envDeliver)])[2]? =
      some (processItem pTrack envDeliver) := by
  have h := C4_cycle_isolation
    [(pBlank, envInitial), (pStored, envScrapeDown), (pTrack, envDeliver)]
    [(pBlank, envInitial), (pStored, envInitial), (pTrack, envDeliver)]
    2 (pTrack, envDeliver) rfl rfl
  exact ⟨h.2.1, h.2.2⟩

/-- C5 (counterexample): when the offer-analysis call fails after retries,
the remaining steps are NOT skipped and the stored state is NOT left
unchanged: the scheduler substitutes a fallback result and still PATCHes,
which clears the stored bank-offer rows. -/
theorem C5_counterexample :
    (processItem pStored envAnalyzeDown).patchAttempted = true ∧
    (processItem pStored envAnalyzeDown).newState ≠ pStored ∧
    (processItem pStored envAnalyzeDown).newState.bank_offers = [] := by
  refine ⟨by decide, by decide, by decide⟩

/-- C5 (amended): only a scrape failure skips the item's remaining steps
and leaves its stored state untouched.  An offer-analysis failure instead
substitutes the fallback `{changed: false, new_hash: previous_hash,
normalized_offers: []}` and processing continues: the snapshot is still
persisted — keeping the previous offer hash but replacing the stored
bank-offer rows with the empty list and still applying the scraped price. -/
theorem C5_amended_step_failure (p : ProductRecord) (env : ItemEnv) :
    (∀ e, env.scrape = Except.error e →
      (processItem p env).newState = p ∧
      (processItem p env).patchAttempted = false ∧
      (processItem p env).notifySent = false) ∧
    (∀ sd err, env.scrape = Except.ok sd → env.analyze = Except.error err →
      env.patchOk = true →
      (processItem p env).patchAttempted = true ∧
      (processItem p env).newState.bank_offers = [] ∧
      (processItem p env).newState.last_offer_hash = p.last_offer_hash ∧
      (processItem p env).newState.last_price =
        (match sd.price with | some v => some v | none => p.last_price)) := by
  constructor
  · intro e hse
    rw [processItem_scrapeFail p env e hse]
    exact ⟨rfl, rfl, rfl⟩
  · intro sd err hs ha hp
    obtain ⟨hpa, hns, _, _⟩ := processItem_ok_common p env sd hs
    have he : effectiveAnalyze p env =
        ⟨false, none, p.last_offer_hash, []⟩ := by
      simp [effectiveAnalyze, ha]
    rw [hp] at hns
    rw [if_pos rfl] at hns
    obtain ⟨_, hprice, _, hhash, hoffers, _⟩ :=
      applyPatch_fields p sd (effectiveAnalyze p env)
    refine ⟨hpa, ?_, ?_, ?_⟩
    · rw [hns, hoffers, he]
      rfl
    · rw [hns, hhash, he]
      cases p.last_offer_hash <;> rfl
    · rw [hns, hprice]

/-- C5 (witness): a scrape failure leaves the item untouched; an analyze
failure still patches and clears the stored offers, keeping the hash. -/
theorem C5_witness :
    (processItem pBlank envScrapeDown).newState = pBlank ∧
    (processItem pBlank envScrapeDown).patchAttempted = false ∧
    (processItem pStored envAnalyzeDown).patchAttempted = true ∧
    (processItem pStored envAnalyzeDown).newState.bank_offers = [] := by
  have h1 := (C5_amended_step_failure pBlank envScrapeDown).1 "scraper unreachable" rfl
  have h2 := (C5_amended_step_failure pStored envAnalyzeDown).2 sdEmpty
    "offer engine unreachable" rfl rfl rfl
  exact ⟨h1.1, h1.2.1, h2.1, h2.2.1⟩

/-- C6: a permanently failing call is attempted exactly `max_retries`
times (coerced to at least 1; the scheduler variant uses `MAX_RETRIES = 3`),
the backoff waits are `2^0, 2^1, ...` — strictly increasing and doubling —
and the caller observes a single terminal failure carrying the last
attempt's error.  (The recorded waits show the code also sleeps once after
the final failed attempt, before the terminal failure surfaces.) -/
theorem C6_retry_exhaustion {α : Type} (f : Nat → Except String α) (e : Nat → String)
    (hf : ∀ i, f i = Except.error (e i)) (url : String) (n : Nat) (hn : 1 ≤ n) :
    (get_with_retry f url n).attempts = n ∧
    (get_with_retry f url n).waits = (List.range n).map (fun i => 2 ^ i) ∧
    (get_with_retry f url n).outcome = Except.error (some (e (n - 1))) ∧
    List.Pairwise (fun a b => a < b) (get_with_retry f url n).waits ∧
    (∀ i, i + 1 < n →
      (get_with_retry f url n).waits[i + 1]? =
        ((get_with_retry f url n).waits[i]?).map (fun w => 2 * w)) ∧
    http_post_with_retry f = ⟨Except.error (some (e 2)), 3, [1, 2, 4]⟩ := by
  have hg : get_with_retry f url n =
      ⟨Except.error (some (e (0 + n - 1))), n, (List.range n).map (fun i => 2 ^ (0 + i))⟩ := by
    unfold get_with_retry
    rw [if_neg (by omega)]
    rw [retryLoop_fail f e hf n 0 (some ("No attempts made for " ++ url))]
    rw [if_neg (by omega)]
  have hfun : (fun i : Nat => (2 : Nat) ^ (0 + i)) = (fun i : Nat => 2 ^ i) := by
    funext i
    rw [Nat.zero_add]
  have hz : 0 + n - 1 = n - 1 := by omega
  rw [hg, hfun, hz]
  refine ⟨rfl, rfl, rfl, ?_, ?_, ?_⟩
  · exact List.Pairwise.map _ (fun a b hab => Nat.pow_lt_pow_right (by omega) hab)
      (List.pairwise_lt_range n)
  · intro i hi
    rw [List.getElem?_map, List.getElem?_map, List.getElem?_range hi,
      List.getElem?_range (by omega)]
    simp [Nat.pow_succ, Nat.mul_comm]
  · unfold http_post_with_retry MAX_RETRIES
    rw [retryLoop_fail f e hf 3 0 none]
    rfl

/-- C6 (witness): a call failing with `boom` on every attempt, at the
default 3 attempts. -/
theorem C6_witness :
    (get_with_retry (fun _ => (Except.error "boom" : Except String Nat)) "http://x" 3).attempts
      = 3 ∧
    (get_with_retry (fun _ => (Except.error "boom" : Except String Nat)) "http://x" 3).waits
      = [1, 2, 4] ∧
    (get_with_retry (fun _ => (Except.error "boom" : Except String Nat)) "http://x" 3).outcome
      = Except.error (some "boom") ∧
    http_post_with_retry (fun _ => (Except.error "boom" : Except String Nat)) =
      ⟨Except.error (some "boom"), 3, [1, 2, 4]⟩ := by
  have h := C6_retry_exhaustion (fun _ => (Except.error "boom" : Except String Nat))
    (fun _ => "boom") (fun _ => rfl) "http://x" 3 (by omega)
  refine ⟨h.1, ?_, h.2.2.1, h.2.2.2.2.2⟩
  rw [h.2.1]
  rfl

/-- C7 (counterexample): `strip_currency("2,000.00")` is 200000, not 2000
and not any rounding of 2000.00 — the decimal point is deleted and the
digits concatenated. -/
theorem C7_counterexample :
    strip_currency (PyVal.str "2,000.00") = 200000 ∧
    strip_currency (PyVal.str "2,000.00") ≠ 2000 := by
  refine ⟨by decide, by decide⟩

/-- C7 (amended): `strip_currency` is total and non-negative by type
(`Nat`-valued, never null, never an error); an absent input or an input
without digits yields 0; `"₹12,345"` yields 12345; `""` yields 0; but
`"2,000.00"` yields 200000 — every non-digit, including the decimal
point, is deleted and the surviving digits concatenated (not a rounding). -/
theorem C7_amended_strip_currency :
    strip_currency PyVal.none = 0 ∧
    strip_currency (PyVal.str "") = 0 ∧
    (∀ s : String, (∀ c ∈ s.data, pyIsDigit c = false) →
      strip_currency (PyVal.str s) = 0) ∧
    strip_currency (PyVal.str "₹12,345") = 12345 ∧
    strip_currency (PyVal.str "2,000.00") = 200000 := by
  refine ⟨rfl, by decide, ?_, by decide, by decide⟩
  intro s hs
  show (if (((s.data.filter (fun c => !(c = '₹' || c = ',' || pyIsSpace c))).filter
        pyIsDigit).isEmpty)
      then 0
      else parseDigits ((s.data.filter
        (fun c => !(c = '₹' || c = ',' || pyIsSpace c))).filter pyIsDigit)) = 0
  have hnil : (s.data.filter
      (fun c => !(c = '₹' || c = ',' || pyIsSpace c))).filter pyIsDigit = [] := by
    rw [List.filter_eq_nil_iff]
    intro a ha
    have hmem : a ∈ s.data := (List.mem_filter.mp ha).1
    rw [hs a hmem]
    simp
  rw [hnil]
  rfl

/-- C7 (witness): a digit-free input maps to 0 by the amended theorem. -/
theorem C7_witness : strip_currency (PyVal.str "no digits here!") = 0 :=
  C7_amended_strip_currency.2.2.1 "no digits here!" (by decide)

/-- C8 (counterexample): a whitespace-only (truthy) card type breaks
idempotence: the first pass normalizes it to the empty string, which is
falsy, so the second pass turns it into null — the two outputs are not
structurally equal. -/
theorem C8_counterexample :
    normalize_offers (normalize_offers [oWsCard]) ≠ normalize_offers [oWsCard] := by
  decide

/-- C8 (amended): `normalize_offers` is idempotent on every input in which
no offer has a truthy card type that strips to the empty string
(equivalently: no whitespace-only card type); already-canonical input is
then a fixed point. -/
theorem C8_amended_normalize_idempotent (offers : List RawOffer)
    (h : ∀ o ∈ offers, pyTruthy (o.card_type.getD PyVal.none) = true →
         pyStrip (pyStr (o.card_type.getD PyVal.none)) ≠ "") :
    normalize_offers (normalize_offers offers) = normalize_offers offers := by
  unfold normalize_offers
  have hmap : (List.insertionSort offerLe (offers.map normalizeOne)).map normalizeOne =
      List.insertionSort offerLe (offers.map normalizeOne) := by
    have hfix : ∀ x ∈ List.insertionSort offerLe (offers.map normalizeOne),
        normalizeOne x = x := by
      intro x hx
      have hx' : x ∈ offers.map normalizeOne :=
        ((List.perm_insertionSort offerLe _).mem_iff).mp hx
      obtain ⟨o, ho, rfl⟩ := List.mem_map.mp hx'
      exact normalizeOne_fix o (h o ho)
    calc (List.insertionSort offerLe (offers.map normalizeOne)).map normalizeOne
        = (List.insertionSort offerLe (offers.map normalizeOne)).map id :=
          List.map_congr_left hfix
      _ = _ := List.map_id _
  rw [hmap]
  exact List.Sorted.insertionSort_eq (List.sorted_insertionSort offerLe _)

/-- C8 (witness): the spec's end-to-end raw offer is idempotent under
normalization, by the amended theorem. -/
theorem C8_witness :
    normalize_offers (normalize_offers [oSpecRaw]) = normalize_offers [oSpecRaw] :=
  C8_amended_normalize_idempotent [oSpecRaw] (by decide)

/-- C9 (counterexample): the scrape reported `deliverable = true`, the
snapshot was persisted (price updated), yet the stored deliverability was
left untouched — the scheduler never forwards the `deliverable` field. -/
theorem C9_counterexample :
    sdDeliver.deliverable = some true ∧
    (processItem pTrack envDeliver).patchAttempted = true ∧
    (processItem pTrack envDeliver).newState.last_price = some 600 ∧
    (processItem pTrack envDeliver).newState.last_deliverable = none := by
  refine ⟨rfl, by decide, by decide, by decide⟩

/-- C9 (amended): for every item whose scrape succeeds the snapshot patch
is attempted unconditionally and (when it succeeds) persists the name if
truthy, the price if present, the availability if present, the new offer
hash if non-null, and the normalized offers each with a per-offer content
hash — but NOT the deliverability, which is never forwarded to the
catalog: the stored `last_deliverable` is unchanged. -/
theorem C9_amended_persist (p : ProductRecord) (env : ItemEnv) (sd : ScrapeData)
    (hs : env.scrape = Except.ok sd) (hp : env.patchOk = true) :
    (processItem p env).patchAttempted = true ∧
    (processItem p env).newState.product_name =
      (match sd.product_name with
       | some s => if s = "" then p.product_name else some s
       | none => p.product_name) ∧
    (processItem p env).newState.last_price =
      (match sd.price with | some v => some v | none => p.last_price) ∧
    (processItem p env).newState.last_availability =
      (match sd.availability with | some b => some b | none => p.last_availability) ∧
    (processItem p env).newState.last_offer_hash =
      (match (effectiveAnalyze p env).new_hash with
       | some h => some h
       | none => p.last_offer_hash) ∧
    (processItem p env).newState.bank_offers =
      (effectiveAnalyze p env).normalized_offers.map (fun o => ⟨o, per_offer_hash o⟩) ∧
    (processItem p env).newState.last_deliverable = p.last_deliverable := by
  obtain ⟨hpa, hns, _, _⟩ := processItem_ok_common p env sd hs
  rw [hp] at hns
  rw [if_pos rfl] at hns
  obtain ⟨h1, h2, h3, h4, h5, h6⟩ := applyPatch_fields p sd (effectiveAnalyze p env)
  refine ⟨hpa, ?_, ?_, ?_, ?_, ?_, ?_⟩ <;> rw [hns]
  exacts [h1, h2, h3, h4, h5, h6]

/-- C9 (witness): the amended persistence facts at a concrete item where
the scrape carried a deliverability verdict. -/
theorem C9_witness :
    (processItem pTrack envDeliver).patchAttempted = true ∧
    (processItem pTrack envDeliver).newState.last_deliverable = pTrack.last_deliverable := by
  have h := C9_amended_persist pTrack envDeliver sdDeliver rfl rfl
  exact ⟨h.1, h.2.2.2.2.2.2⟩

/-- C10: whatever the fetch outcome and extraction functions, the vivo
scraper's bank-offer list is hard-coded empty, so a vivo item's offer hash
is always the hash of the normalized empty list. -/
theorem C10_vivo_empty_offers {Q : Type} (vn : Q → Option String) (vp : Q → Option Int)
    (va : Q → Option Bool) (vd : Q → Option String → Option Bool)
    (fetch : Except String Q) (pincode : Option String) :
    (VivoScraper.scrape vn vp va vd fetch pincode).bank_offers = [] ∧
    compute_hash (normalize_offers (VivoScraper.scrape vn vp va vd fetch pincode).bank_offers) =
      compute_hash (normalize_offers []) := by
  cases fetch <;> exact ⟨rfl, rfl⟩
